import Mathlib

/-!
Verification development for the City Award Voting service (src/main.py).

The service keeps three document tables (settings, categories, votes) in a
JSON file store and exposes vote casting, vote reset, per-voter history,
aggregated results and admin endpoints.  Below, each handler of src/main.py
is shallowly embedded as a pure Lean function over explicit table values:
the Document Store is passed in as arguments, and a handler that persists
a new votes table returns it; an `Except` error means the handler raised an
HTTPException before any save, leaving every table unchanged.  Python dicts
(insertion-ordered, in-place update) are embedded as association lists with
dict-style get/set.
-/

namespace Voting

/-- Error taxonomy of the handlers: each constructor corresponds to one
`HTTPException` site in src/main.py. -/
inductive ApiError where
  | stateClosed
  | notFound
  | quotaExceeded
  | validation
  | unauthorized
deriving DecidableEq, Repr

/-- HTTP status code attached to each error in src/main.py. -/
def ApiError.status_code : ApiError → Nat
  | .stateClosed => 400
  | .notFound => 404
  | .quotaExceeded => 403
  | .validation => 400
  | .unauthorized => 401

/-- Settings document (src/main.py, class Settings).  Only the two flags
that drive behaviour are kept; title and header/footer are display-only. -/
structure Settings where
  is_voting_active : Bool
  anti_abuse_enabled : Bool
deriving DecidableEq, Repr

/-- Participant (src/main.py, class Participant); description and image
are display-only and omitted. -/
structure Participant where
  id : String
  name : String
deriving DecidableEq, Repr

/-- Category (src/main.py, class Category). -/
structure Category where
  id : String
  title : String
  max_votes : Nat
  participants : List Participant
deriving DecidableEq, Repr

/-- Vote record as appended by cast_vote (src/main.py lines 189-194). -/
structure Vote where
  category_id : String
  participant_id : String
  ip_address : String
  timestamp : String
deriving DecidableEq, Repr

/-- Body of POST /api/vote (src/main.py, class VoteRequest). -/
structure VoteRequest where
  category_id : String
  participant_id : String
deriving DecidableEq, Repr

/-! Python dict embedding: insertion-ordered association lists. -/

/-- Dictionary over string keys: insertion-ordered association list. -/
abbrev StrDict (α : Type) := List (String × α)

/-- Python d.get(k): first binding of k, if any. -/
def dget {α : Type} : StrDict α → String → Option α
  | [], _ => none
  | (k, v) :: rest, key => if k = key then some v else dget rest key

/-- Python d[k] = v: replace the binding in place if the key exists,
else append it (insertion order). -/
def dset {α : Type} : StrDict α → String → α → StrDict α
  | [], key, val => [(key, val)]
  | (k, v) :: rest, key, val =>
      if k = key then (key, val) :: rest else (k, v) :: dset rest key val

/-- Nested get: dget d cid, then dget that dict at pid. -/
def dget2 {α : Type} (d : StrDict (StrDict α)) (cid pid : String) : Option α :=
  match dget d cid with
  | none => none
  | some m => dget m pid

/-! Identity Resolver (src/main.py, get_client_ip, lines 122-129).
Headers are `Option String` (None when the header is absent); Python
string truthiness is non-emptiness. -/

/-- Fallback of get_client_ip once CF-Connecting-IP is absent or empty:
X-Forwarded-For handling then the raw peer address (lines 126-129). -/
def forwarded_or_peer (fwd : Option String) (peer : String) : String :=
  match fwd with
  | some f => if f = "" then peer else ((f.splitOn ",").headD "").trim
  | none => peer

/-- get_client_ip (src/main.py lines 122-129): CF-Connecting-IP if truthy,
else the X-Forwarded-For fallback. -/
def get_client_ip (cf fwd : Option String) (peer : String) : String :=
  match cf with
  | some s => if s = "" then forwarded_or_peer fwd peer else s
  | none => forwarded_or_peer fwd peer

/-- Helper of the spec-side resolver: a header that is present and non-empty. -/
def present_nonempty : Option String → Bool
  | none => false
  | some s => s != ""

/-- Spec-side Identity Resolver, written from the specification's words
(spec.md section 4.2): strict precedence (1) the connecting-IP header when
present and non-empty, (2) else the first comma-separated entry of the
forwarded-for header trimmed of whitespace when that header is present and
non-empty, (3) else the raw transport-layer peer address.  Used only to be
compared against `get_client_ip`. -/
def resolve_identity_spec (cf fwd : Option String) (peer : String) : String :=
  if present_nonempty cf then cf.getD peer
  else if present_nonempty fwd then (((fwd.getD peer).splitOn ",").headD "").trim
  else peer

/-! Vote Ledger: cast and reset (src/main.py lines 174-214). -/

/-- Python list comprehension + len in cast_vote line 182: number of
persisted votes matching (identity, category). -/
def count_votes (ip cid : String) (votes : List Vote) : Nat :=
  (votes.filter (fun v => v.ip_address == ip && v.category_id == cid)).length

/-- Python next((c for c in categories if c['id'] == cid), None)
(src/main.py line 184). -/
def find_category (cats : List Category) (cid : String) : Option Category :=
  cats.find? (fun c => c.id == cid)

/-- cast_vote (src/main.py lines 174-197).  Arguments: loaded settings,
categories and votes tables, request body, resolved identity, current UTC
timestamp.  On success returns the votes table as persisted by db.save;
an error models the HTTPException raised before any save. -/
def cast_vote (s : Settings) (cats : List Category) (votes : List Vote)
    (req : VoteRequest) (ip now : String) : Except ApiError (List Vote) :=
  if s.is_voting_active = false then .error .stateClosed
  else
    let gate : Except ApiError Unit :=
      if s.anti_abuse_enabled then
        match find_category cats req.category_id with
        | none => .error .notFound
        | some c =>
            if count_votes ip req.category_id votes ≥ c.max_votes then
              .error .quotaExceeded
            else .ok ()
      else .ok ()
    match gate with
    | .error e => .error e
    | .ok () => .ok (votes ++ [⟨req.category_id, req.participant_id, ip, now⟩])

/-- Outcome field of POST /api/vote/reset (src/main.py lines 212, 214). -/
inductive ResetStatus where
  | success
  | skipped
deriving DecidableEq, Repr

/-- Logical Document Store tables. -/
inductive StoreTable where
  | settings
  | categories
  | votes
deriving DecidableEq, Repr

/-- One Document Store access performed by a handler. -/
inductive StoreOp where
  | load (t : StoreTable)
  | save (t : StoreTable)
deriving DecidableEq, Repr

/-- reset_my_vote (src/main.py lines 199-214), together with the trace of
Document Store accesses it performs, in order.  `payload` is the optional
category_id of the request body (absent key becomes none; Python
`if not category_id` also treats the empty string as missing).  The first
component returns, on success, the resulting votes table (unchanged when
skipped, since no save happens) and the reported status. -/
def reset_my_vote (s : Settings) (payload : Option String) (ip : String)
    (votes : List Vote) :
    Except ApiError (ResetStatus × List Vote) × List StoreOp :=
  if s.is_voting_active = false then
    (.error .stateClosed, [.load .settings])
  else
    match payload with
    | none => (.error .validation, [.load .settings])
    | some cid =>
        if cid = "" then (.error .validation, [.load .settings])
        else
          let new_votes :=
            votes.filter (fun v => !(v.ip_address == ip && v.category_id == cid))
          if new_votes.length = votes.length then
            (.ok (.skipped, votes), [.load .settings, .load .votes])
          else
            (.ok (.success, new_votes), [.load .settings, .load .votes, .save .votes])

/-! Results Aggregator (src/main.py lines 144-172). -/

/-- Loop body of get_my_votes (src/main.py lines 150-154): record one
matching vote in the per-category history dict. -/
def add_my_vote (d : StrDict (List String)) (cid pid : String) :
    StrDict (List String) :=
  match dget d cid with
  | none => dset d cid [pid]
  | some l => dset d cid (l ++ [pid])

/-- get_my_votes (src/main.py lines 144-155): mapping category_id to the
list of participant_ids the resolved identity voted for, in scan order. -/
def get_my_votes (ip : String) (votes : List Vote) : StrDict (List String) :=
  votes.foldl
    (fun d v => if v.ip_address == ip then add_my_vote d v.category_id v.participant_id else d)
    []

/-- Zero-initialized participant tally of one category
(src/main.py line 164, the inner dict comprehension). -/
def zero_map (ps : List Participant) : StrDict Nat :=
  ps.foldl (fun d p => dset d p.id 0) []

/-- Zero-initialized results_data (src/main.py lines 162-164). -/
def init_results (cats : List Category) : StrDict (StrDict Nat) :=
  cats.foldl (fun d c => dset d c.id (zero_map c.participants)) []

/-- Loop body of get_results (src/main.py lines 165-169): increment the
(category_id, participant_id) counter when both references are present. -/
def tally_step (d : StrDict (StrDict Nat)) (v : Vote) : StrDict (StrDict Nat) :=
  match dget d v.category_id with
  | none => d
  | some m =>
      match dget m v.participant_id with
      | none => d
      | some n => dset d v.category_id (dset m v.participant_id (n + 1))

/-- Full results_data computation of get_results (src/main.py lines 162-169). -/
def compute_results (cats : List Category) (votes : List Vote) :
    StrDict (StrDict Nat) :=
  votes.foldl tally_step (init_results cats)

/-- Response of GET /api/results: either the withheld form (visible false,
message only, no numeric data) or the visible form carrying the tally. -/
inductive ResultsView where
  | hidden
  | visible (data : StrDict (StrDict Nat))
deriving DecidableEq, Repr

/-- get_results (src/main.py lines 157-172). -/
def get_results (s : Settings) (cats : List Category) (votes : List Vote) :
    ResultsView :=
  if s.is_voting_active then .hidden else .visible (compute_results cats votes)

/-! Admin Gate (src/main.py lines 131-133 and 224-240). -/

/-- verify_admin (src/main.py lines 131-133): the X-Admin-Token header
(none when absent) must equal the static shared secret exactly. -/
def verify_admin (x_admin_token : Option String) (secret : String) :
    Except ApiError Unit :=
  if x_admin_token = some secret then .ok () else .error .unauthorized

/-- Full data dump returned by GET /api/admin/data (src/main.py lines 224-230). -/
structure AdminData where
  settings : Settings
  categories : List Category
  votes : List Vote
deriving DecidableEq, Repr

/-- get_admin_data (src/main.py lines 224-230), gated by verify_admin. -/
def get_admin_data (x_admin_token : Option String) (secret : String)
    (s : Settings) (cats : List Category) (votes : List Vote) :
    Except ApiError AdminData :=
  match verify_admin x_admin_token secret with
  | .error e => .error e
  | .ok () => .ok ⟨s, cats, votes⟩

/-- update_settings (src/main.py lines 232-235), gated by verify_admin;
returns the settings document as persisted. -/
def update_settings (x_admin_token : Option String) (secret : String)
    (new_settings : Settings) : Except ApiError Settings :=
  match verify_admin x_admin_token secret with
  | .error e => .error e
  | .ok () => .ok new_settings

/-- update_categories (src/main.py lines 237-240), gated by verify_admin;
returns the categories table as persisted. -/
def update_categories (x_admin_token : Option String) (secret : String)
    (new_cats : List Category) : Except ApiError (List Category) :=
  match verify_admin x_admin_token secret with
  | .error e => .error e
  | .ok () => .ok new_cats

/-! Sequential executions of the public mutating surface, for the quota
invariant: settings and categories fixed, votes threaded through. -/

/-- One public mutating request: a vote cast or a vote reset. -/
inductive PublicOp where
  | cast (req : VoteRequest) (ip now : String)
  | reset (payload : Option String) (ip : String)

/-- Effect of one request on the persisted votes table: an error leaves
the table as it was (no save happened). -/
def apply_op (s : Settings) (cats : List Category) (votes : List Vote) :
    PublicOp → List Vote
  | .cast req ip now =>
      match cast_vote s cats votes req ip now with
      | .ok vs => vs
      | .error _ => votes
  | .reset payload ip =>
      match (reset_my_vote s payload ip votes).1 with
      | .ok (_, vs) => vs
      | .error _ => votes

/-- Sequential (non-interleaved) execution of a request list starting from
the seeded empty votes table. -/
def run_ops (s : Settings) (cats : List Category) (ops : List PublicOp) :
    List Vote :=
  ops.foldl (apply_op s cats) []

/-! Dictionary lemmas. -/

theorem dget_dset_self {α : Type} (d : StrDict α) (k : String) (v : α) :
    dget (dset d k v) k = some v := by
  induction d with
  | nil => simp [dget, dset]
  | cons hd tl ih =>
      obtain ⟨k1, v1⟩ := hd
      by_cases h : k1 = k <;> simp [dget, dset, h, ih]

theorem dget_dset_ne {α : Type} (d : StrDict α) {k k2 : String} (v : α)
    (h : k2 ≠ k) : dget (dset d k v) k2 = dget d k2 := by
  have h3 : ¬(k = k2) := Ne.symm h
  induction d with
  | nil => simp [dget, dset, h3]
  | cons hd tl ih =>
      obtain ⟨k1, v1⟩ := hd
      by_cases h1 : k1 = k
      · subst h1
        simp [dget, dset, h3]
      · by_cases h2 : k1 = k2 <;> simp [dget, dset, h, h1, h2, h3, ih]

/-! Lemmas about the results tally. -/

theorem dget_zero_fold_not_mem (ps : List Participant) (d : StrDict Nat)
    (pid : String) (h : pid ∉ ps.map Participant.id) :
    dget (ps.foldl (fun d p => dset d p.id 0) d) pid = dget d pid := by
  induction ps generalizing d with
  | nil => rfl
  | cons p rest ih =>
      simp only [List.map_cons, List.mem_cons] at h
      push_neg at h
      rw [List.foldl_cons, ih _ (by simpa using h.2), dget_dset_ne _ _ h.1]

theorem dget_zero_fold_mem (ps : List Participant) (d : StrDict Nat)
    (pid : String) (h : pid ∈ ps.map Participant.id) :
    dget (ps.foldl (fun d p => dset d p.id 0) d) pid = some 0 := by
  induction ps generalizing d with
  | nil => simp at h
  | cons p rest ih =>
      rw [List.foldl_cons]
      by_cases hmem : pid ∈ rest.map Participant.id
      · exact ih _ hmem
      · have hpid : pid = p.id := by
          simp only [List.map_cons, List.mem_cons] at h
          tauto
        rw [dget_zero_fold_not_mem rest _ pid hmem, hpid, dget_dset_self]

theorem dget_zero_map_mem (ps : List Participant) (pid : String)
    (h : pid ∈ ps.map Participant.id) : dget (zero_map ps) pid = some 0 :=
  dget_zero_fold_mem ps [] pid h

theorem dget_zero_map_not_mem (ps : List Participant) (pid : String)
    (h : pid ∉ ps.map Participant.id) : dget (zero_map ps) pid = none :=
  dget_zero_fold_not_mem ps [] pid h

theorem dget_init_fold_not_mem (cats : List Category) (d : StrDict (StrDict Nat))
    (cid : String) (h : cid ∉ cats.map Category.id) :
    dget (cats.foldl (fun d c => dset d c.id (zero_map c.participants)) d) cid
      = dget d cid := by
  induction cats generalizing d with
  | nil => rfl
  | cons c rest ih =>
      simp only [List.map_cons, List.mem_cons] at h
      push_neg at h
      rw [List.foldl_cons, ih _ (by simpa using h.2), dget_dset_ne _ _ h.1]

theorem dget_init_fold_mem :
    ∀ (cats : List Category) (c : Category), (cats.map Category.id).Nodup →
      c ∈ cats → ∀ d : StrDict (StrDict Nat),
      dget (cats.foldl (fun d c => dset d c.id (zero_map c.participants)) d) c.id
        = some (zero_map c.participants)
  | [], _, _, hc, _ => by simp at hc
  | c1 :: rest, c, hnd, hc, d => by
      rw [List.foldl_cons]
      rcases List.mem_cons.mp hc with heq | hmem
      · subst heq
        have hnot : c.id ∉ rest.map Category.id := by
          simp only [List.map_cons, List.nodup_cons] at hnd
          exact hnd.1
        rw [dget_init_fold_not_mem rest _ _ hnot, dget_dset_self]
      · have hnd2 : (rest.map Category.id).Nodup := by
          simp only [List.map_cons, List.nodup_cons] at hnd
          exact hnd.2
        exact dget_init_fold_mem rest c hnd2 hmem _

theorem dget_init_results_mem (cats : List Category) (c : Category)
    (hnd : (cats.map Category.id).Nodup) (hc : c ∈ cats) :
    dget (init_results cats) c.id = some (zero_map c.participants) :=
  dget_init_fold_mem cats c hnd hc []

theorem dget_init_results_not_mem (cats : List Category) (cid : String)
    (h : cid ∉ cats.map Category.id) : dget (init_results cats) cid = none :=
  dget_init_fold_not_mem cats [] cid h

theorem dget_init_fold_cases :
    ∀ (cats : List Category) (d : StrDict (StrDict Nat)) (cid : String),
      dget (cats.foldl (fun d c => dset d c.id (zero_map c.participants)) d) cid
          = dget d cid ∨
        ∃ c, c ∈ cats ∧ c.id = cid ∧
          dget (cats.foldl (fun d c => dset d c.id (zero_map c.participants)) d) cid
            = some (zero_map c.participants)
  | [], _, _ => Or.inl rfl
  | c1 :: rest, d, cid => by
      rw [List.foldl_cons]
      rcases dget_init_fold_cases rest (dset d c1.id (zero_map c1.participants)) cid
        with h | ⟨c, hc, hcid, heq⟩
      · by_cases he : c1.id = cid
        · right
          refine ⟨c1, List.mem_cons_self _ _, he, ?_⟩
          rw [h, ← he, dget_dset_self]
        · left
          rw [h, dget_dset_ne _ _ (fun hh => he hh.symm)]
      · right
        exact ⟨c, List.mem_cons_of_mem _ hc, hcid, heq⟩

theorem tally_fold_count :
    ∀ (votes : List Vote) (cid pid : String) (d : StrDict (StrDict Nat))
      (m : StrDict Nat) (k : Nat),
      dget d cid = some m → dget m pid = some k →
      dget2 (votes.foldl tally_step d) cid pid =
        some (k + (votes.filter
          (fun v => v.category_id == cid && v.participant_id == pid)).length)
  | [], cid, pid, d, m, k, hd, hm => by
      simp [dget2, hd, hm]
  | v :: rest, cid, pid, d, m, k, hd, hm => by
      rw [List.foldl_cons]
      by_cases hvc : v.category_id = cid
      · by_cases hvp : v.participant_id = pid
        · have hf : List.filter
              (fun v2 => v2.category_id == cid && v2.participant_id == pid)
                (v :: rest) =
              v :: List.filter
                (fun v2 => v2.category_id == cid && v2.participant_id == pid)
                rest := by
            simp [List.filter_cons, hvc, hvp]
          have hstep : tally_step d v = dset d cid (dset m pid (k + 1)) := by
            simp only [tally_step, hvc, hd, hvp, hm]
          rw [hf, hstep,
            tally_fold_count rest cid pid _ _ (k + 1) (dget_dset_self _ _ _)
              (dget_dset_self _ _ _), List.length_cons]
          exact congrArg some (by omega)
        · have hf : List.filter
              (fun v2 => v2.category_id == cid && v2.participant_id == pid)
                (v :: rest) =
              List.filter
                (fun v2 => v2.category_id == cid && v2.participant_id == pid)
                rest := by
            simp [List.filter_cons, hvp]
          rw [hf]
          cases hmv : dget m v.participant_id with
          | none =>
              have hstep : tally_step d v = d := by
                simp only [tally_step, hvc, hd, hmv]
              rw [hstep]
              exact tally_fold_count rest cid pid d m k hd hm
          | some n =>
              have hstep : tally_step d v =
                  dset d cid (dset m v.participant_id (n + 1)) := by
                simp only [tally_step, hvc, hd, hmv]
              rw [hstep]
              exact tally_fold_count rest cid pid _ _ k (dget_dset_self _ _ _)
                (by rw [dget_dset_ne _ _ (fun hh => hvp hh.symm)]; exact hm)
      · have hf : List.filter
            (fun v2 => v2.category_id == cid && v2.participant_id == pid)
              (v :: rest) =
            List.filter
              (fun v2 => v2.category_id == cid && v2.participant_id == pid)
              rest := by
          simp [List.filter_cons, hvc]
        rw [hf]
        have hpres : dget (tally_step d v) cid = some m := by
          cases hdv : dget d v.category_id with
          | none =>
              have hstep : tally_step d v = d := by
                simp only [tally_step, hdv]
              rw [hstep]
              exact hd
          | some m2 =>
              cases hm2 : dget m2 v.participant_id with
              | none =>
                  have hstep : tally_step d v = d := by
                    simp only [tally_step, hdv, hm2]
                  rw [hstep]
                  exact hd
              | some n =>
                  have hstep : tally_step d v =
                      dset d v.category_id (dset m2 v.participant_id (n + 1)) := by
                    simp only [tally_step, hdv, hm2]
                  rw [hstep, dget_dset_ne _ _ (fun hh => hvc hh.symm)]
                  exact hd
        exact tally_fold_count rest cid pid _ m k hpres hm

theorem tally_fold_none :
    ∀ (votes : List Vote) (cid : String) (d : StrDict (StrDict Nat)),
      dget d cid = none → dget (votes.foldl tally_step d) cid = none
  | [], _, _, h => h
  | v :: rest, cid, d, h => by
      rw [List.foldl_cons]
      apply tally_fold_none rest cid
      cases hdv : dget d v.category_id with
      | none =>
          have hstep : tally_step d v = d := by
            simp only [tally_step, hdv]
          rw [hstep]
          exact h
      | some m2 =>
          cases hm2 : dget m2 v.participant_id with
          | none =>
              have hstep : tally_step d v = d := by
                simp only [tally_step, hdv, hm2]
              rw [hstep]
              exact h
          | some n =>
              have hne : cid ≠ v.category_id := by
                intro hh
                rw [← hh, h] at hdv
                cases hdv
              have hstep : tally_step d v =
                  dset d v.category_id (dset m2 v.participant_id (n + 1)) := by
                simp only [tally_step, hdv, hm2]
              rw [hstep, dget_dset_ne _ _ hne]
              exact h

theorem tally_fold_inner_none :
    ∀ (votes : List Vote) (cid pid : String) (d : StrDict (StrDict Nat))
      (m : StrDict Nat),
      dget d cid = some m → dget m pid = none →
      ∃ m2, dget (votes.foldl tally_step d) cid = some m2 ∧ dget m2 pid = none
  | [], _, _, _, m, hd, hm => ⟨m, hd, hm⟩
  | v :: rest, cid, pid, d, m, hd, hm => by
      rw [List.foldl_cons]
      by_cases hvc : v.category_id = cid
      · cases hmv : dget m v.participant_id with
        | none =>
            have hstep : tally_step d v = d := by
              simp only [tally_step, hvc, hd, hmv]
            rw [hstep]
            exact tally_fold_inner_none rest cid pid d m hd hm
        | some n =>
            have hvp : v.participant_id ≠ pid := by
              intro hh
              rw [hh, hm] at hmv
              cases hmv
            have hstep : tally_step d v =
                dset d cid (dset m v.participant_id (n + 1)) := by
              simp only [tally_step, hvc, hd, hmv]
            rw [hstep]
            exact tally_fold_inner_none rest cid pid _ _ (dget_dset_self _ _ _)
              (by rw [dget_dset_ne _ _ (Ne.symm hvp)]; exact hm)
      · have hpres : dget (tally_step d v) cid = some m := by
          cases hdv : dget d v.category_id with
          | none =>
              have hstep : tally_step d v = d := by
                simp only [tally_step, hdv]
              rw [hstep]
              exact hd
          | some m2 =>
              cases hm2 : dget m2 v.participant_id with
              | none =>
                  have hstep : tally_step d v = d := by
                    simp only [tally_step, hdv, hm2]
                  rw [hstep]
                  exact hd
              | some n =>
                  have hstep : tally_step d v =
                      dset d v.category_id (dset m2 v.participant_id (n + 1)) := by
                    simp only [tally_step, hdv, hm2]
                  rw [hstep, dget_dset_ne _ _ (fun hh => hvc hh.symm)]
                  exact hd
        exact tally_fold_inner_none rest cid pid _ m hpres hm

/-! Counting lemmas for the quota invariant. -/

theorem count_votes_append (ip cid : String) (votes : List Vote) (v : Vote) :
    count_votes ip cid (votes ++ [v]) =
      count_votes ip cid votes +
        (if v.ip_address = ip ∧ v.category_id = cid then 1 else 0) := by
  by_cases h1 : v.ip_address = ip <;> by_cases h2 : v.category_id = cid <;>
    simp [count_votes, List.filter_append, h1, h2]

theorem count_votes_sublist (ip cid : String) {l1 l2 : List Vote}
    (h : l1.Sublist l2) : count_votes ip cid l1 ≤ count_votes ip cid l2 :=
  (h.filter _).length_le

/-- With anti-abuse on, a successful cast implies its category was found,
the quota was not yet reached, and the persisted table is the old one
with exactly the new record appended. -/
theorem cast_vote_ok_characterize (s : Settings) (cats : List Category)
    (votes : List Vote) (req : VoteRequest) (ip now : String) (vs : List Vote)
    (hA : s.anti_abuse_enabled = true)
    (h : cast_vote s cats votes req ip now = .ok vs) :
    ∃ c, find_category cats req.category_id = some c ∧
      count_votes ip req.category_id votes < c.max_votes ∧
      vs = votes ++ [⟨req.category_id, req.participant_id, ip, now⟩] := by
  unfold cast_vote at h
  by_cases hact : s.is_voting_active = true
  · simp only [hact, hA, if_true] at h
    cases hfc : find_category cats req.category_id with
    | none => rw [hfc] at h; simp at h
    | some c =>
        rw [hfc] at h
        by_cases hcnt : count_votes ip req.category_id votes ≥ c.max_votes
        · simp [hcnt] at h
        · simp only [if_neg hcnt] at h
          refine ⟨c, rfl, lt_of_not_ge hcnt, ?_⟩
          cases h
          rfl
  · have hf : s.is_voting_active = false := by
      cases hb : s.is_voting_active
      · rfl
      · exact absurd hb hact
    simp [hf] at h

/-- A successful reset persists a sublist of the previous votes table. -/
theorem reset_my_vote_ok_sublist (s : Settings) (payload : Option String)
    (ip : String) (votes : List Vote) (st : ResetStatus) (vs : List Vote)
    (h : (reset_my_vote s payload ip votes).1 = .ok (st, vs)) :
    vs.Sublist votes := by
  unfold reset_my_vote at h
  by_cases hact : s.is_voting_active = false
  · simp [hact] at h
  · rw [if_neg hact] at h
    cases payload with
    | none => simp at h
    | some cid =>
        by_cases hcid : cid = ""
        · simp [hcid] at h
        · simp only [if_neg hcid] at h
          by_cases hlen :
              (votes.filter
                (fun v => !(v.ip_address == ip && v.category_id == cid))).length
                = votes.length
          · rw [if_pos hlen] at h
            simp at h
            rw [← h.2]
          · rw [if_neg hlen] at h
            simp at h
            rw [← h.2]
            exact List.filter_sublist votes

/-- Quota invariant on a votes table: for every identity and every
category id resolved by find_category, the matching count is within that
category's max_votes. -/
def quota_inv (cats : List Category) (votes : List Vote) : Prop :=
  ∀ ip cid c, find_category cats cid = some c →
    count_votes ip cid votes ≤ c.max_votes

theorem apply_op_quota (s : Settings) (cats : List Category)
    (hA : s.anti_abuse_enabled = true) (votes : List Vote) (op : PublicOp)
    (h : quota_inv cats votes) :
    quota_inv cats (apply_op s cats votes op) := by
  cases op with
  | cast req ip now =>
      have hred : apply_op s cats votes (.cast req ip now) =
          match cast_vote s cats votes req ip now with
          | .ok vs => vs
          | .error _ => votes := rfl
      rw [hred]
      cases hres : cast_vote s cats votes req ip now with
      | error e => exact h
      | ok vs =>
          obtain ⟨c0, hc0, hcnt, hvs⟩ :=
            cast_vote_ok_characterize s cats votes req ip now vs hA hres
          subst hvs
          show quota_inv cats
            (votes ++ [⟨req.category_id, req.participant_id, ip, now⟩])
          intro ip2 cid2 c2 hc2
          rw [count_votes_append]
          by_cases hm : ip = ip2 ∧ req.category_id = cid2
          · obtain ⟨hip, hcid⟩ := hm
            subst hip
            subst hcid
            rw [if_pos ⟨rfl, rfl⟩]
            rw [hc0] at hc2
            cases hc2
            omega
          · rw [if_neg (by simpa using hm)]
            simpa using h ip2 cid2 c2 hc2
  | reset payload ip =>
      have hred : apply_op s cats votes (.reset payload ip) =
          match (reset_my_vote s payload ip votes).1 with
          | .ok (_, vs) => vs
          | .error _ => votes := rfl
      rw [hred]
      cases hres : (reset_my_vote s payload ip votes).1 with
      | error e => exact h
      | ok p =>
          obtain ⟨st, vs⟩ := p
          show quota_inv cats vs
          intro ip2 cid2 c2 hc2
          exact le_trans
            (count_votes_sublist ip2 cid2
              (reset_my_vote_ok_sublist s payload ip votes st vs hres))
            (h ip2 cid2 c2 hc2)

/-! Theorems for the claims, in claim order. -/

/-- C1: with anti-abuse enabled, every sequential execution of public
cast/reset requests keeps, for every identity and every category the
categories table resolves, the persisted matching vote count within that
category's max_votes; and while voting is active, a cast attempt made when
the count has already reached max_votes is rejected with the
quota-exceeded error (an error appends nothing). -/
theorem C1_sequential_quota_invariant (s : Settings) (cats : List Category)
    (hA : s.anti_abuse_enabled = true) :
    (∀ ops ip cid c, find_category cats cid = some c →
        count_votes ip cid (run_ops s cats ops) ≤ c.max_votes) ∧
      (∀ votes req ip now c, s.is_voting_active = true →
        find_category cats req.category_id = some c →
        c.max_votes ≤ count_votes ip req.category_id votes →
        cast_vote s cats votes req ip now = .error .quotaExceeded) := by
  constructor
  · have key : ∀ (ops : List PublicOp) (votes : List Vote), quota_inv cats votes →
        quota_inv cats (ops.foldl (apply_op s cats) votes) := by
      intro ops
      induction ops with
      | nil => exact fun votes h => h
      | cons op rest ih =>
          exact fun votes h => ih _ (apply_op_quota s cats hA votes op h)
    intro ops ip cid c hc
    exact key ops [] (fun ip2 cid2 c2 _ => by simp [count_votes]) ip cid c hc
  · intro votes req ip now c hact hc hge
    simp [cast_vote, hact, hA, hc, hge]

/-- Witness for C1: a category with max_votes 1; after a sequential
execution of two identical casts by one identity the persisted count is
within the limit, and a cast at the limit is rejected with the
quota-exceeded error. -/
theorem C1_sequential_quota_invariant_witness :
    (⟨true, true⟩ : Settings).anti_abuse_enabled = true ∧
      find_category [⟨"c1", "Best", 1, [⟨"p1", "Alice"⟩]⟩] "c1" =
        some ⟨"c1", "Best", 1, [⟨"p1", "Alice"⟩]⟩ ∧
      count_votes "ipA" "c1"
          (run_ops ⟨true, true⟩ [⟨"c1", "Best", 1, [⟨"p1", "Alice"⟩]⟩]
            [PublicOp.cast ⟨"c1", "p1"⟩ "ipA" "t0",
              PublicOp.cast ⟨"c1", "p1"⟩ "ipA" "t1"]) ≤ 1 ∧
      cast_vote ⟨true, true⟩ [⟨"c1", "Best", 1, [⟨"p1", "Alice"⟩]⟩]
          [⟨"c1", "p1", "ipA", "t0"⟩] ⟨"c1", "p1"⟩ "ipA" "t1" =
        .error .quotaExceeded := by
  have h := C1_sequential_quota_invariant ⟨true, true⟩
    [⟨"c1", "Best", 1, [⟨"p1", "Alice"⟩]⟩] rfl
  refine ⟨rfl, rfl,
    h.1 [PublicOp.cast ⟨"c1", "p1"⟩ "ipA" "t0",
        PublicOp.cast ⟨"c1", "p1"⟩ "ipA" "t1"]
      "ipA" "c1" ⟨"c1", "Best", 1, [⟨"p1", "Alice"⟩]⟩ rfl,
    h.2 [⟨"c1", "p1", "ipA", "t0"⟩] ⟨"c1", "p1"⟩ "ipA" "t1"
      ⟨"c1", "Best", 1, [⟨"p1", "Alice"⟩]⟩ rfl rfl (by decide)⟩

/-- C3: for every vote-cast request made while is_voting_active is false,
cast_vote fails with the closed-voting StateError, for every category,
participant, identity and timestamp input; the error means the handler
raised before db.save, so the votes table is unchanged. -/
theorem C3_closed_cast_rejected (s : Settings) (cats : List Category)
    (votes : List Vote) (req : VoteRequest) (ip now : String)
    (h : s.is_voting_active = false) :
    cast_vote s cats votes req ip now = .error .stateClosed := by
  simp [cast_vote, h]

/-- Witness for C3 at a concrete closed-voting input. -/
theorem C3_closed_cast_rejected_witness :
    (⟨false, true⟩ : Settings).is_voting_active = false ∧
      cast_vote ⟨false, true⟩ [] [] ⟨"c1", "p1"⟩ "1.2.3.4" "t0" =
        .error .stateClosed :=
  ⟨rfl, C3_closed_cast_rejected ⟨false, true⟩ [] [] ⟨"c1", "p1"⟩ "1.2.3.4" "t0" rfl⟩

/-- C2 counterexample: with voting active but anti_abuse_enabled = false,
a cast naming a category that does not exist (the categories table is
empty) is accepted and a record is appended, contradicting the claim that
an unknown category is rejected with a not-found error regardless of the
anti-abuse flag. -/
theorem C2_counterexample :
    find_category [] "c1" = none ∧
      cast_vote ⟨true, false⟩ [] [] ⟨"c1", "p1"⟩ "9.9.9.9" "t0" =
        .ok [⟨"c1", "p1", "9.9.9.9", "t0"⟩] :=
  ⟨rfl, rfl⟩

/-- C2 amended: while voting is active and anti_abuse_enabled is true, a
cast whose category_id references no existing category fails with the
not-found error (and appends nothing); when anti_abuse_enabled is false
the category check is skipped entirely. -/
theorem C2_unknown_category_rejected (s : Settings) (cats : List Category)
    (votes : List Vote) (req : VoteRequest) (ip now : String)
    (hact : s.is_voting_active = true) (hanti : s.anti_abuse_enabled = true)
    (hmiss : find_category cats req.category_id = none) :
    cast_vote s cats votes req ip now = .error .notFound := by
  simp [cast_vote, hact, hanti, hmiss]

/-- Witness for the amended C2 at a concrete input. -/
theorem C2_unknown_category_rejected_witness :
    (⟨true, true⟩ : Settings).is_voting_active = true ∧
      (⟨true, true⟩ : Settings).anti_abuse_enabled = true ∧
      find_category [] "c1" = none ∧
      cast_vote ⟨true, true⟩ [] [] ⟨"c1", "p1"⟩ "9.9.9.9" "t0" =
        .error .notFound :=
  ⟨rfl, rfl, rfl,
    C2_unknown_category_rejected ⟨true, true⟩ [] [] ⟨"c1", "p1"⟩ "9.9.9.9" "t0"
      rfl rfl rfl⟩

/-- C4: the results view is the withheld form (no numeric data) whenever
is_voting_active is true, and the visible form carrying the computed
per-category per-participant tally whenever is_voting_active is false. -/
theorem C4_results_visibility_gate (s : Settings) (cats : List Category)
    (votes : List Vote) :
    (s.is_voting_active = true → get_results s cats votes = .hidden) ∧
      (s.is_voting_active = false →
        get_results s cats votes = .visible (compute_results cats votes)) := by
  constructor <;> intro h <;> simp [get_results, h]

/-- Witness for C4 at concrete open and closed configurations. -/
theorem C4_results_visibility_gate_witness :
    get_results ⟨true, true⟩ [] [] = .hidden ∧
      get_results ⟨false, true⟩ [] [] = .visible (compute_results [] []) :=
  ⟨(C4_results_visibility_gate ⟨true, true⟩ [] []).1 rfl,
    (C4_results_visibility_gate ⟨false, true⟩ [] []).2 rfl⟩

/-- C7: get_client_ip implements exactly the precedence stated by the
specification — connecting-IP header if present and non-empty, else the
first comma-separated forwarded-for entry trimmed, else the peer address —
for every header configuration and peer address. -/
theorem C7_identity_resolution (cf fwd : Option String) (peer : String) :
    get_client_ip cf fwd peer = resolve_identity_spec cf fwd peer := by
  cases cf with
  | none =>
      cases fwd with
      | none => simp [get_client_ip, forwarded_or_peer, resolve_identity_spec,
          present_nonempty]
      | some f =>
          by_cases hf : f = "" <;>
            simp [get_client_ip, forwarded_or_peer, resolve_identity_spec,
              present_nonempty, hf]
  | some s =>
      by_cases hs : s = ""
      · cases fwd with
        | none => simp [get_client_ip, forwarded_or_peer, resolve_identity_spec,
            present_nonempty, hs]
        | some f =>
            by_cases hf : f = "" <;>
              simp [get_client_ip, forwarded_or_peer, resolve_identity_spec,
                present_nonempty, hs, hf]
      · simp [get_client_ip, resolve_identity_spec, present_nonempty, hs]

/-- C8 counterexample: a vote-reset request whose body lacks category_id,
made while voting is active, is indeed rejected with ValidationError, but
the handler has already loaded the settings table by then — the store
access trace is non-empty, contradicting the claim that no table is loaded
or saved. -/
theorem C8_counterexample :
    (reset_my_vote ⟨true, true⟩ none "1.2.3.4" []).1 = .error .validation ∧
      (reset_my_vote ⟨true, true⟩ none "1.2.3.4" []).2 = [.load .settings] ∧
      ([StoreOp.load .settings] : List StoreOp) ≠ [] :=
  ⟨rfl, rfl, by simp⟩

/-- C8 amended: a vote-reset request lacking category_id (absent key or
empty string), made while voting is active, is rejected with
ValidationError after loading only the settings table (to evaluate the
voting-state gate); the votes table is neither loaded nor saved. -/
theorem C8_validation_before_votes_access (s : Settings)
    (payload : Option String) (ip : String) (votes : List Vote)
    (hact : s.is_voting_active = true)
    (hbad : payload = none ∨ payload = some "") :
    (reset_my_vote s payload ip votes).1 = .error .validation ∧
      (reset_my_vote s payload ip votes).2 = [.load .settings] := by
  rcases hbad with h | h <;> subst h <;>
    refine ⟨?_, ?_⟩ <;> simp [reset_my_vote, hact]

/-- Witness for the amended C8 at a concrete input. -/
theorem C8_validation_before_votes_access_witness :
    (⟨true, true⟩ : Settings).is_voting_active = true ∧
      (reset_my_vote ⟨true, true⟩ (some "") "1.2.3.4" []).1 =
        .error .validation :=
  ⟨rfl,
    (C8_validation_before_votes_access ⟨true, true⟩ (some "") "1.2.3.4" []
      rfl (Or.inr rfl)).1⟩

/-- C5: with category ids distinct, the closed-voting tally maps every
category and each of its participants to the exact number of matching
vote records (a participant with no votes keeps its zero-initialized
count); a category id absent from the categories table is absent from the
results, and a participant id not in its category's participant list is
absent from that category's tally — stale vote references are silently
excluded. -/
theorem C5_tally_correctness (cats : List Category) (votes : List Vote)
    (hnd : (cats.map Category.id).Nodup) :
    (∀ c ∈ cats, ∀ p ∈ c.participants,
        dget2 (compute_results cats votes) c.id p.id =
          some (votes.filter
            (fun v => v.category_id == c.id && v.participant_id == p.id)).length) ∧
      (∀ cid, cid ∉ cats.map Category.id →
        dget (compute_results cats votes) cid = none) ∧
      (∀ c ∈ cats, ∀ pid, pid ∉ c.participants.map Participant.id →
        dget2 (compute_results cats votes) c.id pid = none) := by
  refine ⟨?_, ?_, ?_⟩
  · intro c hc p hp
    have hinit := dget_init_results_mem cats c hnd hc
    have hzm := dget_zero_map_mem c.participants p.id (List.mem_map_of_mem _ hp)
    have h := tally_fold_count votes c.id p.id (init_results cats) _ 0 hinit hzm
    simpa [compute_results] using h
  · intro cid hcid
    exact tally_fold_none votes cid _ (dget_init_results_not_mem cats cid hcid)
  · intro c hc pid hpid
    have hinit := dget_init_results_mem cats c hnd hc
    have hzm := dget_zero_map_not_mem c.participants pid hpid
    obtain ⟨m2, hm2, hnone⟩ :=
      tally_fold_inner_none votes c.id pid _ _ hinit hzm
    show dget2 (votes.foldl tally_step (init_results cats)) c.id pid = none
    simp only [dget2, hm2]
    exact hnone

/-- Witness for C5 at the specification's concrete example: category c1
with max_votes 1 and participants p1 and p2, votes (c1,p1,ipA),
(c1,p2,ipB), (c1,p1,ipC); with that configuration the tally gives p1 two
votes and p2 one. -/
theorem C5_tally_correctness_witness :
    (([⟨"c1", "Cat", 1, [⟨"p1", "A"⟩, ⟨"p2", "B"⟩]⟩] :
        List Category).map Category.id).Nodup ∧
      dget2 (compute_results [⟨"c1", "Cat", 1, [⟨"p1", "A"⟩, ⟨"p2", "B"⟩]⟩]
          [⟨"c1", "p1", "ipA", "t0"⟩, ⟨"c1", "p2", "ipB", "t1"⟩,
            ⟨"c1", "p1", "ipC", "t2"⟩]) "c1" "p1" = some 2 ∧
      dget2 (compute_results [⟨"c1", "Cat", 1, [⟨"p1", "A"⟩, ⟨"p2", "B"⟩]⟩]
          [⟨"c1", "p1", "ipA", "t0"⟩, ⟨"c1", "p2", "ipB", "t1"⟩,
            ⟨"c1", "p1", "ipC", "t2"⟩]) "c1" "p2" = some 1 := by
  have h := (C5_tally_correctness [⟨"c1", "Cat", 1, [⟨"p1", "A"⟩, ⟨"p2", "B"⟩]⟩]
    [⟨"c1", "p1", "ipA", "t0"⟩, ⟨"c1", "p2", "ipB", "t1"⟩,
      ⟨"c1", "p1", "ipC", "t2"⟩] (by decide)).1
  have h1 := h ⟨"c1", "Cat", 1, [⟨"p1", "A"⟩, ⟨"p2", "B"⟩]⟩ (by simp)
    ⟨"p1", "A"⟩ (by simp)
  have h2 := h ⟨"c1", "Cat", 1, [⟨"p1", "A"⟩, ⟨"p2", "B"⟩]⟩ (by simp)
    ⟨"p2", "B"⟩ (by simp)
  exact ⟨by decide, h1.trans (by decide), h2.trans (by decide)⟩

/-- C10: a cast made while voting is active that passes the category and
quota checks is accepted with exactly one record appended even when
participant_id names no participant of any category carrying the
requested category id; the new record raises the caller's (identity,
category) count by one and appears in the my-votes view, but leaves the
computed results tally unchanged. -/
theorem C10_participant_never_validated (s : Settings) (cats : List Category)
    (votes : List Vote) (req : VoteRequest) (ip now : String) (c : Category)
    (hact : s.is_voting_active = true)
    (hcat : find_category cats req.category_id = some c)
    (hq : count_votes ip req.category_id votes < c.max_votes)
    (hpid : ∀ c2 ∈ cats, c2.id = req.category_id →
      req.participant_id ∉ c2.participants.map Participant.id) :
    cast_vote s cats votes req ip now =
        .ok (votes ++ [⟨req.category_id, req.participant_id, ip, now⟩]) ∧
      count_votes ip req.category_id
          (votes ++ [⟨req.category_id, req.participant_id, ip, now⟩]) =
        count_votes ip req.category_id votes + 1 ∧
      req.participant_id ∈
        (dget (get_my_votes ip
            (votes ++ [⟨req.category_id, req.participant_id, ip, now⟩]))
          req.category_id).getD [] ∧
      compute_results cats
          (votes ++ [⟨req.category_id, req.participant_id, ip, now⟩]) =
        compute_results cats votes := by
  refine ⟨?_, ?_, ?_, ?_⟩
  · by_cases hA : s.anti_abuse_enabled = true
    · simp [cast_vote, hact, hA, hcat, not_le.mpr hq]
    · simp [cast_vote, hact, hA]
  · rw [count_votes_append]
    simp
  · have hfold : get_my_votes ip
        (votes ++ [⟨req.category_id, req.participant_id, ip, now⟩]) =
        add_my_vote (get_my_votes ip votes) req.category_id req.participant_id := by
      unfold get_my_votes
      rw [List.foldl_append]
      simp
    rw [hfold]
    generalize get_my_votes ip votes = d
    unfold add_my_vote
    cases hdc : dget d req.category_id with
    | none => simp [dget_dset_self]
    | some l => simp [dget_dset_self]
  · show List.foldl tally_step (init_results cats)
        (votes ++ [⟨req.category_id, req.participant_id, ip, now⟩]) =
      compute_results cats votes
    rw [List.foldl_append]
    simp only [List.foldl_cons, List.foldl_nil]
    rcases dget_init_fold_cases cats [] req.category_id
      with hbase | ⟨c2, hc2, hcid2, hsome⟩
    · have hnone : dget (votes.foldl tally_step (init_results cats))
          req.category_id = none :=
        tally_fold_none votes req.category_id _ hbase
      show tally_step (votes.foldl tally_step (init_results cats))
          ⟨req.category_id, req.participant_id, ip, now⟩ =
        votes.foldl tally_step (init_results cats)
      simp only [tally_step, hnone]
    · have hzm : dget (zero_map c2.participants) req.participant_id = none :=
        dget_zero_map_not_mem _ _ (hpid c2 hc2 hcid2)
      obtain ⟨m2, hm2, hn2⟩ :=
        tally_fold_inner_none votes req.category_id req.participant_id _ _
          hsome hzm
      have hm3 : dget (votes.foldl tally_step (init_results cats))
          req.category_id = some m2 := hm2
      show tally_step (votes.foldl tally_step (init_results cats))
          ⟨req.category_id, req.participant_id, ip, now⟩ =
        votes.foldl tally_step (init_results cats)
      simp only [tally_step, hm3, hn2]

/-- Witness for C10: one category c1 with participant p1 only; a cast for
the unknown participant ghost is accepted and appended, and the tally over
the appended table equals the tally over the empty table. -/
theorem C10_participant_never_validated_witness :
    (⟨true, true⟩ : Settings).is_voting_active = true ∧
      find_category [⟨"c1", "Best", 2, [⟨"p1", "A"⟩]⟩] "c1" =
        some ⟨"c1", "Best", 2, [⟨"p1", "A"⟩]⟩ ∧
      count_votes "ipA" "c1" [] < 2 ∧
      cast_vote ⟨true, true⟩ [⟨"c1", "Best", 2, [⟨"p1", "A"⟩]⟩] []
          ⟨"c1", "ghost"⟩ "ipA" "t0" = .ok [⟨"c1", "ghost", "ipA", "t0"⟩] ∧
      compute_results [⟨"c1", "Best", 2, [⟨"p1", "A"⟩]⟩]
          [⟨"c1", "ghost", "ipA", "t0"⟩] =
        compute_results [⟨"c1", "Best", 2, [⟨"p1", "A"⟩]⟩] [] := by
  have h := C10_participant_never_validated ⟨true, true⟩
    [⟨"c1", "Best", 2, [⟨"p1", "A"⟩]⟩] [] ⟨"c1", "ghost"⟩ "ipA" "t0"
    ⟨"c1", "Best", 2, [⟨"p1", "A"⟩]⟩ rfl rfl (by decide) (by decide)
  exact ⟨rfl, rfl, by decide, h.1, h.2.2.2⟩

/-- C6: while voting is active, a reset with a present non-empty
category_id always succeeds; the persisted votes table is exactly the old
table with every record matching (identity, category_id) removed and every
other record kept in place, and the reported status is skipped precisely
when no record matched (success otherwise). -/
theorem C6_reset_exactness (s : Settings) (payload : Option String)
    (ip cid : String) (votes : List Vote)
    (hact : s.is_voting_active = true) (hp : payload = some cid)
    (hne : cid ≠ "") :
    ∃ st vs, (reset_my_vote s payload ip votes).1 = .ok (st, vs) ∧
      vs = votes.filter (fun v => !(v.ip_address == ip && v.category_id == cid)) ∧
      (st = ResetStatus.skipped ↔
        ∀ v ∈ votes, ¬(v.ip_address = ip ∧ v.category_id = cid)) := by
  subst hp
  by_cases hall : ∀ v ∈ votes, ¬(v.ip_address = ip ∧ v.category_id = cid)
  · have heq : votes.filter (fun v => !(v.ip_address == ip && v.category_id == cid))
        = votes := by
      apply List.filter_eq_self.mpr
      intro v hv
      by_cases h5 : v.ip_address = ip <;> by_cases h6 : v.category_id = cid <;>
        simp [h5, h6]
      exact absurd ⟨h5, h6⟩ (hall v hv)
    refine ⟨.skipped, votes, ?_, heq.symm, iff_of_true rfl hall⟩
    simp [reset_my_vote, hact, hne]
    split
    · rfl
    · rename_i hcond
      exact absurd (fun a ha => by have := hall a ha; tauto) hcond
  · refine ⟨.success, _, ?_, rfl, ?_⟩
    · simp [reset_my_vote, hact, hne]
      split
      · rename_i hcond
        exact absurd (fun a ha => by have := hcond a ha; tauto) hall
      · rfl
    · constructor
      · intro h
        exact absurd h (by simp)
      · intro h
        exact absurd h hall

/-- Witness for C6 at a concrete input: the matching record is removed,
the same identity's vote in another category and another identity's vote
in the same category survive, and the status is success. -/
theorem C6_reset_exactness_witness :
    (⟨true, true⟩ : Settings).is_voting_active = true ∧ ("c1" : String) ≠ "" ∧
      ∃ st vs,
        (reset_my_vote ⟨true, true⟩ (some "c1") "ipA"
            [⟨"c1", "p1", "ipA", "t0"⟩, ⟨"c1", "p2", "ipB", "t1"⟩,
              ⟨"c2", "p1", "ipA", "t2"⟩]).1 = .ok (st, vs) ∧
          vs = [⟨"c1", "p2", "ipB", "t1"⟩, ⟨"c2", "p1", "ipA", "t2"⟩] ∧
          st = ResetStatus.success := by
  refine ⟨rfl, by decide, ?_⟩
  obtain ⟨st, vs, h1, h2, h3⟩ :=
    C6_reset_exactness ⟨true, true⟩ (some "c1") "ipA" "c1"
      [⟨"c1", "p1", "ipA", "t0"⟩, ⟨"c1", "p2", "ipB", "t1"⟩,
        ⟨"c2", "p1", "ipA", "t2"⟩] rfl rfl (by decide)
  refine ⟨st, vs, h1, h2.trans (by decide), ?_⟩
  cases st with
  | success => rfl
  | skipped =>
      exact absurd ⟨rfl, rfl⟩ (h3.mp rfl ⟨"c1", "p1", "ipA", "t0"⟩ (by simp))

/-- C9: the admin gate passes exactly when the admin header equals the
static shared secret, and every privileged operation (admin data read,
settings update, categories replacement) fails with the unauthorized error
whenever the header is absent or differs, regardless of the request body. -/
theorem C9_admin_gate (tok : Option String) (secret : String) (s : Settings)
    (cats new_cats : List Category) (votes : List Vote) (new_s : Settings) :
    (verify_admin tok secret = .ok () ↔ tok = some secret) ∧
      (tok ≠ some secret →
        get_admin_data tok secret s cats votes = .error .unauthorized ∧
          update_settings tok secret new_s = .error .unauthorized ∧
          update_categories tok secret new_cats = .error .unauthorized) := by
  constructor
  · unfold verify_admin
    split <;> simp_all
  · intro h
    simp [get_admin_data, update_settings, update_categories, verify_admin, h]

/-- Witness for C9: an absent header is rejected on all three privileged
operations, and the exact secret passes the gate. -/
theorem C9_admin_gate_witness :
    (none : Option String) ≠ some "supersecretkey" ∧
      get_admin_data none "supersecretkey" ⟨false, true⟩ [] [] =
        .error .unauthorized ∧
      verify_admin (some "supersecretkey") "supersecretkey" = .ok () := by
  have h := C9_admin_gate none "supersecretkey" ⟨false, true⟩ [] [] [] ⟨false, true⟩
  have h2 := C9_admin_gate (some "supersecretkey") "supersecretkey"
    ⟨false, true⟩ [] [] [] ⟨false, true⟩
  exact ⟨by simp, (h.2 (by simp)).1, h2.1.mpr rfl⟩

end Voting
